import Mathlib

/-
  Verification development for the OmniDev (DevHive) repository.

  The repository ships the Next.js dashboard (TaskList, MetricsPanel,
  CreateTaskModal) together with the design documents; the backend
  orchestration core (TaskStateMachine, PolicyEngine, Orchestrator,
  ExecutionLedger) is specified in spec.md but its code is not present.
  Dashboard functions are embedded directly from the TypeScript source;
  the orchestration core is modelled from the specification, each such
  definition carries a doc comment saying so.
-/

set_option maxHeartbeats 1000000

namespace OmniDev

/-- Modelled from the spec: the six task lifecycle states of §4.1
(the TaskStateMachine code is not in the repository). -/
inductive TaskState
  | pending
  | inProgress
  | awaitingApproval
  | completed
  | failed
  | cancelled
deriving DecidableEq, Repr

/-- Modelled from the spec: §4.1 classifies `in_progress` and
`awaiting_approval` as the transient states; `pending` is an entry state
and `completed`/`failed`/`cancelled` are terminal. -/
def TaskState.isTransient : TaskState → Bool
  | .inProgress => true
  | .awaitingApproval => true
  | _ => false

/-- Modelled from the spec: terminal states per §4.1 and the glossary. -/
def TaskState.isTerminal : TaskState → Bool
  | .completed => true
  | .failed => true
  | .cancelled => true
  | _ => false

/-- Modelled from the spec: the `current_stage` enumeration of §3,
Plan/Implement/Test/Refactor/Review/Done. -/
inductive Stage
  | plan
  | implement
  | test
  | refactor
  | review
  | done
deriving DecidableEq, Repr

/-- Modelled from the spec: pipeline order of §2 (Plan, Implement, Test,
Refactor, Review); `done` is a fixed point. -/
def Stage.next : Stage → Stage
  | .plan => .implement
  | .implement => .test
  | .test => .refactor
  | .refactor => .review
  | .review => .done
  | .done => .done

/-- Modelled from the spec: the successor stage, when one exists.
`done` has no successor. -/
def Stage.next? : Stage → Option Stage
  | .done => none
  | s => some s.next

/-- Modelled from the spec: outcome of one StageAttempt (§3):
success, failure, or policy_blocked. -/
inductive Outcome
  | success
  | failure
  | policyBlocked
deriving DecidableEq, Repr

/-- Modelled from the spec: one ExecutionLedger entry (§3 StageAttempt),
restricted to the fields the claims mention. -/
structure StageAttempt where
  stage : Stage
  attemptNumber : Nat
  outcome : Outcome
deriving DecidableEq, Repr

/-- Modelled from the spec: the Task record of §3, restricted to the
fields the claims mention (`state`, `current_stage`,
`attempt_count_by_stage`). -/
structure Task where
  state : TaskState
  currentStage : Stage
  attempts : Stage → Nat

/-- Modelled from the spec: a Task together with its ExecutionLedger
(one Task owns its ledger entries, §3). -/
structure SysState where
  task : Task
  ledger : List StageAttempt

/-- Modelled from the spec: replace only the lifecycle state of a task. -/
def withState (σ : SysState) (s : TaskState) : SysState :=
  { σ with task := { σ.task with state := s } }

/-- The ledger holds a successful attempt for stage `s`. -/
def hasSuccess (l : List StageAttempt) (s : Stage) : Bool :=
  l.any fun a => decide (a.stage = s) && decide (a.outcome = Outcome.success)

/-- The ledger holds a successful attempt for some stage. -/
def anySuccess (l : List StageAttempt) : Bool :=
  l.any fun a => decide (a.outcome = Outcome.success)

/-- Modelled from the spec: the transition requests of the §4.1 table —
orchestrator events (pickup, stage completion, warn at final stage,
stage failure, final success) and the external commands cancel/retry. -/
inductive Request
  | pickup
  | stageSuccess
  | warnAtFinal
  | stageFailure
  | finalSuccess
  | cancel
  | retry
deriving DecidableEq, Repr

/-- Modelled from the spec: the error taxonomy entry for illegal
transition requests (§7). -/
inductive CtlError
  | invalidTransition
deriving DecidableEq, Repr

/-- Modelled from the spec: the §4.1 transition table transcribed as a
list of legal (state, request) pairs. -/
def legalPairs : List (TaskState × Request) :=
  [ (.pending, .pickup),
    (.inProgress, .stageSuccess),
    (.inProgress, .warnAtFinal),
    (.inProgress, .stageFailure),
    (.inProgress, .finalSuccess),
    (.inProgress, .cancel),
    (.awaitingApproval, .cancel),
    (.failed, .retry) ]

/-- Modelled from the spec: the TaskStateMachine of §4.1.  A legal
request is applied (retry resets the failed stage's attempt counter and
re-enters at that stage, or at Plan when no stage ever succeeded);
every other request is rejected with `InvalidTransition` and the state
is left unchanged. -/
def applyRequest (σ : SysState) (r : Request) : SysState × Option CtlError :=
  match σ.task.state, r with
  | .pending, .pickup => (withState σ .inProgress, none)
  | .inProgress, .stageSuccess =>
      ({ σ with task := { σ.task with currentStage := σ.task.currentStage.next } }, none)
  | .inProgress, .warnAtFinal => (withState σ .awaitingApproval, none)
  | .inProgress, .stageFailure => (withState σ .failed, none)
  | .inProgress, .finalSuccess =>
      ({ σ with task := { state := .completed, currentStage := .done,
                          attempts := σ.task.attempts } }, none)
  | .inProgress, .cancel => (withState σ .cancelled, none)
  | .awaitingApproval, .cancel => (withState σ .cancelled, none)
  | .failed, .retry =>
      ({ σ with task :=
          { state := .inProgress,
            currentStage := if anySuccess σ.ledger then σ.task.currentStage else .plan,
            attempts := fun s =>
              if s = σ.task.currentStage then 0 else σ.task.attempts s } }, none)
  | _, _ => (σ, some .invalidTransition)

/-- TaskList.tsx line 107: the Cancel button is rendered exactly when
`task.status === 'in_progress'`. -/
def cancelShown (status : String) : Bool := status == "in_progress"

/-- TaskList.tsx line 96: the Retry button is rendered exactly when
`task.status === 'failed'`. -/
def retryShown (status : String) : Bool := status == "failed"

/-- Modelled from the spec: every attempt appends exactly one
StageAttempt to the ledger (§4.2), numbered by the incremented
per-stage counter. -/
def recordAttempt (σ : SysState) (o : Outcome) : List StageAttempt :=
  σ.ledger ++ [⟨σ.task.currentStage, σ.task.attempts σ.task.currentStage + 1, o⟩]

/-- Modelled from the spec: increment the attempt counter of the
current stage only. -/
def bumpAttempts (t : Task) : Stage → Nat :=
  fun s => if s = t.currentStage then t.attempts s + 1 else t.attempts s

/-- Modelled from the spec: state after a successful stage attempt with
a clean policy verdict — the stage advances, the final stage (Review)
completes the task (§4.1, §4.5 step 4). -/
def afterSuccess (σ : SysState) : SysState :=
  { task := { state := if σ.task.currentStage = .review then .completed else .inProgress,
              currentStage := σ.task.currentStage.next,
              attempts := bumpAttempts σ.task },
    ledger := recordAttempt σ .success }

/-- Modelled from the spec: state after the final stage succeeds but a
`warn`-severity policy rule fires — the task pauses in
awaiting_approval (§4.1). -/
def afterFinalWarn (σ : SysState) : SysState :=
  { task := { state := .awaitingApproval,
              currentStage := σ.task.currentStage.next,
              attempts := bumpAttempts σ.task },
    ledger := recordAttempt σ .success }

/-- Modelled from the spec: state after a recoverable failure — the
attempt is recorded, and the task fails once the retry budget of
`m` attempts is exhausted, otherwise it stays in_progress for the next
retry (§4.2). -/
def afterFailure (m : Nat) (σ : SysState) : SysState :=
  { task := { state := if m ≤ σ.task.attempts σ.task.currentStage + 1
                       then .failed else .inProgress,
              currentStage := σ.task.currentStage,
              attempts := bumpAttempts σ.task },
    ledger := recordAttempt σ .failure }

/-- Modelled from the spec: state after a fatal failure — never
retried, immediate stage-level failure (§4.2). -/
def afterFatal (σ : SysState) : SysState :=
  { task := { state := .failed,
              currentStage := σ.task.currentStage,
              attempts := bumpAttempts σ.task },
    ledger := recordAttempt σ .failure }

/-- Modelled from the spec: state after a stage attempt whose output
trips a `block`-severity policy rule — recorded as policy_blocked and
the task fails (§4.5 step 4, §8 scenario). -/
def afterBlocked (σ : SysState) : SysState :=
  { task := { state := .failed,
              currentStage := σ.task.currentStage,
              attempts := bumpAttempts σ.task },
    ledger := recordAttempt σ .policyBlocked }

/-- Modelled from the spec: the initial state of a freshly created task
(state pending, at Plan, no attempts, empty ledger). -/
def initState : SysState :=
  ⟨⟨.pending, .plan, fun _ => 0⟩, []⟩

/-- Modelled from the spec: one scheduling-turn step of the
Orchestrator (§4.5, §5).  Attempts happen only in in_progress, only for
pipeline stages, and only while the stage's attempt counter is below
the retry budget `m`; cancel applies to transient states and retry to
failed tasks, both via the §4.1 state machine. -/
inductive Step (m : Nat) : SysState → SysState → Prop
  | pickup {σ : SysState} :
      σ.task.state = .pending → Step m σ (withState σ .inProgress)
  | success {σ : SysState} :
      σ.task.state = .inProgress → σ.task.currentStage ≠ .done →
      σ.task.attempts σ.task.currentStage < m → Step m σ (afterSuccess σ)
  | finalWarn {σ : SysState} :
      σ.task.state = .inProgress → σ.task.currentStage = .review →
      σ.task.attempts σ.task.currentStage < m → Step m σ (afterFinalWarn σ)
  | recoverable {σ : SysState} :
      σ.task.state = .inProgress → σ.task.currentStage ≠ .done →
      σ.task.attempts σ.task.currentStage < m → Step m σ (afterFailure m σ)
  | fatal {σ : SysState} :
      σ.task.state = .inProgress → σ.task.currentStage ≠ .done →
      σ.task.attempts σ.task.currentStage < m → Step m σ (afterFatal σ)
  | blocked {σ : SysState} :
      σ.task.state = .inProgress → σ.task.currentStage ≠ .done →
      σ.task.attempts σ.task.currentStage < m → Step m σ (afterBlocked σ)
  | cancelCmd {σ : SysState} :
      σ.task.state.isTransient = true → Step m σ (withState σ .cancelled)
  | retryCmd {σ : SysState} :
      σ.task.state = .failed → Step m σ (applyRequest σ .retry).1

/-- Modelled from the spec: states reachable from a freshly created
task by orchestrator steps and external commands. -/
inductive Reachable (m : Nat) : SysState → Prop
  | init : Reachable m initState
  | step {σ σ' : SysState} : Reachable m σ → Step m σ σ' → Reachable m σ'

/-- The ledger holds a successful attempt for stage `s` (propositional
form used by the ordering invariant). -/
def hasSucc (l : List StageAttempt) (s : Stage) : Prop :=
  ∃ b ∈ l, b.stage = s ∧ b.outcome = Outcome.success

/-- The ordering invariant of §5: every ledger entry for a successor
stage is preceded by a recorded success of its predecessor, and the
current stage itself was only entered after its predecessor succeeded. -/
def LedgerInv (σ : SysState) : Prop :=
  (∀ a ∈ σ.ledger, ∀ s : Stage, s.next? = some a.stage → hasSucc σ.ledger s) ∧
  (∀ s : Stage, s.next? = some σ.task.currentStage → hasSucc σ.ledger s)

/-- Modelled from the spec: rule severities, `warn` below `block`. -/
inductive Severity
  | warn
  | block
deriving DecidableEq, Repr

/-- Modelled from the spec: the order on severities used by the
tie-break rule (`block` overrides `warn`). -/
def Severity.le : Severity → Severity → Bool
  | .warn, _ => true
  | .block, .block => true
  | .block, .warn => false

/-- Modelled from the spec: maximum of two severities. -/
def sevMax : Severity → Severity → Severity
  | .block, _ => .block
  | _, .block => .block
  | .warn, .warn => .warn

/-- Modelled from the spec: one fired guardrail violation with its
rule name and severity. -/
structure RuleViolation where
  rule : String
  severity : Severity
deriving DecidableEq, Repr

/-- Modelled from the spec: the features of a proposed stage output the
five policy categories of §4.3 inspect. -/
structure StageOutput where
  changedLines : Nat
  newDeps : List String
  coverage : Nat
  breakingChange : Bool
  content : String
deriving DecidableEq, Repr

/-- Modelled from the spec: the process-wide policy configuration of
§3/§4.3 — each category independently toggleable except the secret
check, which is non-overridable. -/
structure PolicyRules where
  locLimit : Option Nat
  allowNewDeps : Bool
  coverageMin : Option Nat
  coverageIsBlock : Bool
  allowBreakingChanges : Bool
  secretPatterns : List String
deriving DecidableEq, Repr

/-- The pattern `pat` matches at the head of `hay`. -/
def leadMatch : List Char → List Char → Bool
  | [], _ => true
  | _ :: _, [] => false
  | a :: as, b :: bs => a == b && leadMatch as bs

/-- The pattern `pat` occurs somewhere inside `hay`. -/
def occursIn (pat : List Char) : List Char → Bool
  | [] => leadMatch pat []
  | c :: cs => leadMatch pat (c :: cs) || occursIn pat cs

/-- Modelled from the spec: the five §4.3 policy categories evaluated
against a stage output — LOC limit (block), dependency introduction
(block), coverage threshold (warn unless configured block), breaking
change (block), secret pattern (block, non-overridable). -/
def checkViolations (output : StageOutput) (rules : PolicyRules) : List RuleViolation :=
  (match rules.locLimit with
   | some cap => if cap < output.changedLines then [⟨"loc_limit", .block⟩] else []
   | none => []) ++
  (if !rules.allowNewDeps && !output.newDeps.isEmpty
   then [⟨"new_dependency", .block⟩] else []) ++
  (match rules.coverageMin with
   | some minCov =>
       if output.coverage < minCov
       then [⟨"coverage", if rules.coverageIsBlock then .block else .warn⟩] else []
   | none => []) ++
  (if !rules.allowBreakingChanges && output.breakingChange
   then [⟨"breaking_change", .block⟩] else []) ++
  (if rules.secretPatterns.any (fun p => occursIn p.data output.content.data)
   then [⟨"secret_pattern", .block⟩] else [])

/-- Modelled from the spec: overall severity is the maximum severity
across the fired violations; none when no violation fired. -/
def overallSeverity : List RuleViolation → Option Severity
  | [] => none
  | v :: vs => some (vs.foldl (fun acc w => sevMax acc w.severity) v.severity)

/-- Modelled from the spec: the PolicyResult of the §4.3 contract. -/
structure PolicyResult where
  violations : List RuleViolation
  severity : Option Severity
deriving DecidableEq, Repr

/-- Modelled from the spec: `PolicyEngine.evaluate` of §4.3 — a pure
function of the `(stage, output, rules)` triple. -/
def evaluate (stage : Stage) (output : StageOutput) (rules : PolicyRules) : PolicyResult :=
  let _ := stage
  let vs := checkViolations output rules
  ⟨vs, overallSeverity vs⟩

/-- JavaScript whitespace skipped by `parseInt` (the common cases). -/
def isSpaceChar (c : Char) : Bool :=
  c == ' ' || c == '\t' || c == '\n' || c == '\r'

/-- Value of one digit character under the given radix, as JavaScript
`parseInt` reads it. -/
def digitVal (radix : Nat) (c : Char) : Option Nat :=
  let v : Option Nat :=
    if '0' ≤ c ∧ c ≤ '9' then some (c.toNat - '0'.toNat)
    else if 'a' ≤ c ∧ c ≤ 'z' then some (c.toNat - 'a'.toNat + 10)
    else if 'A' ≤ c ∧ c ≤ 'Z' then some (c.toNat - 'A'.toNat + 10)
    else none
  match v with
  | some n => if n < radix then some n else none
  | none => none

/-- Longest leading run of digits of the given radix. -/
def takeDigits (radix : Nat) : List Char → List Nat
  | [] => []
  | c :: cs =>
    match digitVal radix c with
    | some n => n :: takeDigits radix cs
    | none => []

/-- JavaScript `parseInt(s)` with no radix argument: skip leading
whitespace, read an optional sign, switch to base 16 after `0x`/`0X`,
then read the longest digit run; `none` models `NaN` (no digits). -/
def jsParseInt (s : String) : Option Int :=
  let cs := s.data.dropWhile isSpaceChar
  let signRest : Int × List Char :=
    match cs with
    | '-' :: r => (-1, r)
    | '+' :: r => (1, r)
    | r => (1, r)
  let radixBody : Nat × List Char :=
    match signRest.2 with
    | '0' :: 'x' :: r => (16, r)
    | '0' :: 'X' :: r => (16, r)
    | r => (10, r)
  let ds := takeDigits radixBody.1 radixBody.2
  if ds.isEmpty then none
  else some (signRest.1 * ((ds.foldl (fun acc d => acc * radixBody.1 + d) 0 : Nat) : Int))

/-- Observable outcome of one submit of the CreateTaskModal form:
either `onCreate` is called with the parsed number, or the error toast
is shown and no creation request is made. -/
inductive SubmitResult
  | created (n : Int)
  | errorShown
deriving DecidableEq, Repr

/-- CreateTaskModal.tsx handleSubmit (src/unnamed/part_001 lines 13-32):
`const num = parseInt(issueNumber); if (isNaN(num) || num <= 0)` show
the error and return, otherwise call `onCreate(num)`. -/
def handleSubmit (issueNumber : String) : SubmitResult :=
  match jsParseInt issueNumber with
  | none => .errorShown
  | some num => if num ≤ 0 then .errorShown else .created num

/-- JavaScript `x.toFixed(1)` for the nonnegative rational `num / den`:
the tenths digit is the half-up rounding of `10 * num / den`. -/
def toFixed1 (num den : Nat) : String :=
  let tenths := (num * 10 * 2 + den) / (2 * den)
  toString (tenths / 10) ++ "." ++ toString (tenths % 10)

/-- MetricsPanel successRate: `total_tasks > 0 ?
((completed_tasks / total_tasks) * 100).toFixed(1) : '0.0'`. -/
def successRate (total completed : Nat) : String :=
  if 0 < total then toFixed1 (completed * 100) total else "0.0"

/-- JavaScript `toLowerCase()` modelled character-wise (the statuses
involved are ASCII). -/
def toLowerStr (s : String) : String := ⟨s.data.map Char.toLower⟩

/-- TaskList.getStatusClass: switch on `status.toLowerCase()` with
dedicated badge classes for pending/in_progress/completed/failed and a
generic default class otherwise; a JS switch on a string compares the
scrutinee against each case label in order. -/
def getStatusClass (status : String) : String :=
  let baseClass := "status-badge "
  let sl := toLowerStr status
  if sl = "pending" then baseClass ++ "status-pending"
  else if sl = "in_progress" then baseClass ++ "status-in_progress"
  else if sl = "completed" then baseClass ++ "status-completed"
  else if sl = "failed" then baseClass ++ "status-failed"
  else baseClass ++ "bg-slate-100 text-slate-800"

/-! ## Helper lemmas -/

lemma applyRequest_retry_eq (σ : SysState) (h : σ.task.state = .failed) :
    applyRequest σ .retry =
      ({ task := { state := .inProgress,
                   currentStage := if anySuccess σ.ledger then σ.task.currentStage else .plan,
                   attempts := fun s => if s = σ.task.currentStage then 0 else σ.task.attempts s },
         ledger := σ.ledger }, none) := by
  rcases σ with ⟨⟨st, cs, att⟩, led⟩
  replace h : st = TaskState.failed := h
  subst h
  rfl

lemma next?_ne_plan : ∀ s : Stage, s.next? ≠ some Stage.plan := by
  intro s
  cases s <;> simp [Stage.next?, Stage.next]

lemma next_inj : ∀ s t : Stage, s ≠ .done → t ≠ .done → s.next = t.next → s = t := by
  intro s t hs ht h
  cases s <;> cases t <;> first | rfl | simp_all [Stage.next]

lemma next?_eq (s : Stage) (h : s ≠ .done) : s.next? = some s.next := by
  cases s <;> first | rfl | exact absurd rfl h

lemma bump_le {m : Nat} (t : Task) (h3 : t.attempts t.currentStage < m)
    (ih : ∀ s, t.attempts s ≤ m) : ∀ s, bumpAttempts t s ≤ m := by
  intro s
  unfold bumpAttempts
  by_cases hc : s = t.currentStage
  · rw [if_pos hc, hc]; exact h3
  · rw [if_neg hc]; exact ih s

lemma hasSucc_append (l e : List StageAttempt) (s : Stage) (h : hasSucc l s) :
    hasSucc (l ++ e) s := by
  obtain ⟨b, hb, hp⟩ := h
  exact ⟨b, List.mem_append_left _ hb, hp⟩

lemma ledgerInv_same_stage (σ : SysState) (o : Outcome) (ih : LedgerInv σ) :
    (∀ a ∈ recordAttempt σ o, ∀ s : Stage, s.next? = some a.stage →
        hasSucc (recordAttempt σ o) s) ∧
    (∀ s : Stage, s.next? = some σ.task.currentStage → hasSucc (recordAttempt σ o) s) := by
  obtain ⟨ih1, ih2⟩ := ih
  constructor
  · intro a ha s hs
    rcases List.mem_append.mp ha with hmem | hmem
    · exact hasSucc_append _ _ _ (ih1 a hmem s hs)
    · simp only [List.mem_singleton] at hmem
      subst hmem
      exact hasSucc_append _ _ _ (ih2 s hs)
  · intro s hs
    exact hasSucc_append _ _ _ (ih2 s hs)

lemma ledgerInv_advance (σ : SysState) (h2 : σ.task.currentStage ≠ .done) :
    ∀ s : Stage, s.next? = some σ.task.currentStage.next →
      hasSucc (recordAttempt σ .success) s := by
  intro s hs
  have hne : s ≠ Stage.done := by
    intro hd
    rw [hd] at hs
    exact Option.noConfusion hs
  rw [next?_eq s hne] at hs
  have heq : s = σ.task.currentStage := next_inj s _ hne h2 (Option.some.inj hs)
  subst heq
  exact ⟨⟨σ.task.currentStage, σ.task.attempts σ.task.currentStage + 1, .success⟩,
         List.mem_append_right _ (List.mem_singleton.mpr rfl), rfl, rfl⟩

lemma ledgerInv_step {m : Nat} {σ σ' : SysState} (hst : Step m σ σ')
    (ih : LedgerInv σ) : LedgerInv σ' := by
  cases hst with
  | pickup h1 => exact ih
  | cancelCmd h1 => exact ih
  | retryCmd h1 =>
      rw [applyRequest_retry_eq σ h1]
      refine ⟨ih.1, ?_⟩
      intro s hs
      dsimp only at hs
      by_cases ha : anySuccess σ.ledger = true
      · rw [if_pos ha] at hs
        exact ih.2 s hs
      · rw [if_neg ha] at hs
        exact absurd hs (next?_ne_plan s)
  | success h1 h2 h3 =>
      exact ⟨(ledgerInv_same_stage σ .success ih).1, ledgerInv_advance σ h2⟩
  | finalWarn h1 h2 h3 =>
      refine ⟨(ledgerInv_same_stage σ .success ih).1, ?_⟩
      exact ledgerInv_advance σ (by rw [h2]; exact fun hd => Stage.noConfusion hd)
  | recoverable h1 h2 h3 =>
      exact ⟨(ledgerInv_same_stage σ .failure ih).1, (ledgerInv_same_stage σ .failure ih).2⟩
  | fatal h1 h2 h3 =>
      exact ⟨(ledgerInv_same_stage σ .failure ih).1, (ledgerInv_same_stage σ .failure ih).2⟩
  | blocked h1 h2 h3 =>
      exact ⟨(ledgerInv_same_stage σ .policyBlocked ih).1,
             (ledgerInv_same_stage σ .policyBlocked ih).2⟩

lemma ledgerInv_reachable {m : Nat} {σ : SysState} (h : Reachable m σ) : LedgerInv σ := by
  induction h with
  | init =>
      constructor
      · intro a ha
        exact absurd ha (List.not_mem_nil a)
      · intro s hs
        exact absurd hs (next?_ne_plan s)
  | step hr hst ih => exact ledgerInv_step hst ih

lemma reach1 : Reachable 3 (withState initState .inProgress) :=
  Reachable.step Reachable.init (Step.pickup rfl)

lemma reach2 : Reachable 3 (afterSuccess (withState initState .inProgress)) :=
  Reachable.step reach1 (Step.success rfl (by decide) (by decide))

lemma reach3 : Reachable 3 (afterSuccess (afterSuccess (withState initState .inProgress))) :=
  Reachable.step reach2 (Step.success rfl (by decide) (by decide))

lemma sevLe_refl : ∀ a : Severity, Severity.le a a = true := by
  intro a
  cases a <;> rfl

lemma sevLe_trans : ∀ a b c : Severity,
    Severity.le a b = true → Severity.le b c = true → Severity.le a c = true := by
  intro a b c h1 h2
  cases a <;> cases b <;> cases c <;> first | rfl | exact h1 | exact h2

lemma sevMax_le_left : ∀ a b : Severity, Severity.le a (sevMax a b) = true := by
  intro a b
  cases a <;> cases b <;> rfl

lemma sevMax_le_right : ∀ a b : Severity, Severity.le b (sevMax a b) = true := by
  intro a b
  cases a <;> cases b <;> rfl

lemma sevMax_eq_or : ∀ a b : Severity, sevMax a b = a ∨ sevMax a b = b := by
  intro a b
  cases a <;> cases b <;> first | exact Or.inl rfl | exact Or.inr rfl

lemma sevLe_block : ∀ a : Severity, Severity.le .block a = true → a = .block := by
  intro a h
  cases a
  · exact absurd h (by simp [Severity.le])
  · rfl

lemma foldl_sevMax_spec (vs : List RuleViolation) (v : Severity) :
    Severity.le v (vs.foldl (fun acc w => sevMax acc w.severity) v) = true ∧
    (vs.foldl (fun acc w => sevMax acc w.severity) v = v ∨
      ∃ w ∈ vs, w.severity = vs.foldl (fun acc w => sevMax acc w.severity) v) ∧
    (∀ w ∈ vs, Severity.le w.severity
      (vs.foldl (fun acc w => sevMax acc w.severity) v) = true) := by
  induction vs generalizing v with
  | nil =>
      refine ⟨sevLe_refl v, Or.inl rfl, ?_⟩
      intro w hw
      exact absurd hw (List.not_mem_nil w)
  | cons w ws ih =>
      obtain ⟨ih1, ih2, ih3⟩ := ih (sevMax v w.severity)
      simp only [List.foldl_cons]
      refine ⟨sevLe_trans _ _ _ (sevMax_le_left v w.severity) ih1, ?_, ?_⟩
      · rcases ih2 with he | ⟨w', hw', he⟩
        · rw [he]
          rcases sevMax_eq_or v w.severity with h | h
          · exact Or.inl h
          · exact Or.inr ⟨w, List.mem_cons_self w ws, h.symm⟩
        · exact Or.inr ⟨w', List.mem_cons_of_mem w hw', he⟩
      · intro w' hw'
        rcases List.mem_cons.mp hw' with he | hmem
        · subst he
          exact sevLe_trans _ _ _ (sevMax_le_right v w'.severity) ih1
        · exact ih3 w' hmem

lemma overallSeverity_spec (l : List RuleViolation) (h : l ≠ []) :
    ∃ mx : Severity, overallSeverity l = some mx ∧
      (∃ v ∈ l, v.severity = mx) ∧
      (∀ v ∈ l, Severity.le v.severity mx = true) := by
  cases l with
  | nil => exact absurd rfl h
  | cons v vs =>
      obtain ⟨h1, h2, h3⟩ := foldl_sevMax_spec vs v.severity
      refine ⟨_, rfl, ?_, ?_⟩
      · rcases h2 with he | ⟨w, hw, he⟩
        · exact ⟨v, List.mem_cons_self v vs, he.symm⟩
        · exact ⟨w, List.mem_cons_of_mem v hw, he⟩
      · intro w hw
        rcases List.mem_cons.mp hw with he | hmem
        · subst he
          exact h1
        · exact h3 w hmem

/-! ## Claims -/

/-- Claim C1, counterexample: per the §4.1 state machine `pending` is an
entry state, not a transient one — a cancel request on a pending task is
rejected with InvalidTransition and leaves the state pending — and the
dashboard renders no cancel control for pending or awaiting_approval
tasks. -/
theorem cancel_pending_rejected :
    (applyRequest ⟨⟨.pending, .plan, fun _ => 0⟩, []⟩ .cancel).2 = some .invalidTransition ∧
    (applyRequest ⟨⟨.pending, .plan, fun _ => 0⟩, []⟩ .cancel).1.task.state = .pending ∧
    TaskState.pending.isTransient = false ∧
    cancelShown "pending" = false ∧
    cancelShown "awaiting_approval" = false :=
  ⟨rfl, rfl, rfl, rfl, rfl⟩

/-- Claim C1, amended: for every task in a §4.1-transient state
(in_progress or awaiting_approval) an explicit cancel request is
accepted by the control surface and transitions the task to cancelled;
the dashboard exposes the cancel command only for in_progress tasks. -/
theorem cancel_transient_accepted (σ : SysState) (h : σ.task.state.isTransient = true) :
    (applyRequest σ .cancel).1.task.state = .cancelled ∧
    (applyRequest σ .cancel).2 = none ∧
    cancelShown "in_progress" = true ∧
    cancelShown "pending" = false ∧
    cancelShown "awaiting_approval" = false := by
  rcases σ with ⟨⟨st, cs, att⟩, led⟩
  replace h : st.isTransient = true := h
  cases st <;> simp [TaskState.isTransient] at h <;>
    exact ⟨rfl, rfl, rfl, rfl, rfl⟩

/-- Witness: cancel of a concrete in_progress task is accepted and
yields cancelled. -/
theorem cancel_transient_accepted_witness :
    (applyRequest ⟨⟨.inProgress, .plan, fun _ => 0⟩, []⟩ .cancel).1.task.state = .cancelled ∧
    (applyRequest ⟨⟨.inProgress, .plan, fun _ => 0⟩, []⟩ .cancel).2 = none ∧
    cancelShown "in_progress" = true ∧
    cancelShown "pending" = false ∧
    cancelShown "awaiting_approval" = false :=
  cancel_transient_accepted ⟨⟨.inProgress, .plan, fun _ => 0⟩, []⟩ rfl

/-- Claim C2: an explicit retry of a failed task is accepted and moves
it to in_progress, re-entering at the failed stage when some prior
stage succeeded and at Plan otherwise, resetting the attempt counter of
the failed stage only and leaving the ledger untouched. -/
theorem retry_reenters_failed_stage (σ : SysState) (h : σ.task.state = .failed) :
    (applyRequest σ .retry).2 = none ∧
    (applyRequest σ .retry).1.task.state = .inProgress ∧
    (anySuccess σ.ledger = true →
      (applyRequest σ .retry).1.task.currentStage = σ.task.currentStage) ∧
    (anySuccess σ.ledger = false →
      (applyRequest σ .retry).1.task.currentStage = .plan) ∧
    (applyRequest σ .retry).1.task.attempts σ.task.currentStage = 0 ∧
    (∀ s, s ≠ σ.task.currentStage →
      (applyRequest σ .retry).1.task.attempts s = σ.task.attempts s) ∧
    (applyRequest σ .retry).1.ledger = σ.ledger := by
  rw [applyRequest_retry_eq σ h]
  refine ⟨rfl, rfl, fun hs => ?_, fun hs => ?_, ?_, fun s hs => ?_, rfl⟩
  · simp [hs]
  · simp [hs]
  · simp
  · simp [hs]

/-- Witness: retry of a concrete task that failed at Test after a
successful Plan re-enters at Test with its counter reset and Plan's
counter intact. -/
theorem retry_reenters_failed_stage_witness :
    (applyRequest ⟨⟨.failed, .test, fun s => if s = Stage.test then 3 else 1⟩,
        [⟨.plan, 1, .success⟩]⟩ .retry).1.task.state = .inProgress ∧
    (applyRequest ⟨⟨.failed, .test, fun s => if s = Stage.test then 3 else 1⟩,
        [⟨.plan, 1, .success⟩]⟩ .retry).1.task.currentStage = .test ∧
    (applyRequest ⟨⟨.failed, .test, fun s => if s = Stage.test then 3 else 1⟩,
        [⟨.plan, 1, .success⟩]⟩ .retry).1.task.attempts .test = 0 ∧
    (applyRequest ⟨⟨.failed, .test, fun s => if s = Stage.test then 3 else 1⟩,
        [⟨.plan, 1, .success⟩]⟩ .retry).1.task.attempts .plan = 1 := by
  have h := retry_reenters_failed_stage
    ⟨⟨.failed, .test, fun s => if s = Stage.test then 3 else 1⟩, [⟨.plan, 1, .success⟩]⟩ rfl
  exact ⟨h.2.1, h.2.2.1 rfl, h.2.2.2.2.1, by
    have := h.2.2.2.2.2.1 Stage.plan (by decide)
    simpa using this⟩

/-- Claim C3: every transition request not listed in the §4.1 table
fails with InvalidTransition and leaves the whole state (task and
ledger) unchanged. -/
theorem invalid_transition_rejected (σ : SysState) (r : Request)
    (h : (σ.task.state, r) ∉ legalPairs) :
    applyRequest σ r = (σ, some .invalidTransition) := by
  rcases σ with ⟨⟨st, cs, att⟩, led⟩
  replace h : (st, r) ∉ legalPairs := h
  cases st <;> cases r <;>
    first
      | rfl
      | exact absurd (by decide) h

/-- Witness: a stage-completion event on a pending task is rejected
unchanged. -/
theorem invalid_transition_rejected_witness :
    applyRequest ⟨⟨.pending, .plan, fun _ => 0⟩, []⟩ .stageSuccess
      = (⟨⟨.pending, .plan, fun _ => 0⟩, []⟩, some .invalidTransition) :=
  invalid_transition_rejected ⟨⟨.pending, .plan, fun _ => 0⟩, []⟩ .stageSuccess (by decide)

/-- Claim C4: in every reachable state of the orchestrator with retry
budget m, every stage's attempt counter is at most m. -/
theorem attempt_counts_bounded (m : Nat) (σ : SysState) (h : Reachable m σ) :
    ∀ s, σ.task.attempts s ≤ m := by
  induction h with
  | init => intro s; exact Nat.zero_le m
  | @step σ σ' hr hst ih =>
    cases hst with
    | pickup h1 => exact ih
    | cancelCmd h1 => exact ih
    | retryCmd h1 =>
        intro s
        rw [applyRequest_retry_eq σ h1]
        dsimp only
        by_cases hc : s = σ.task.currentStage
        · rw [if_pos hc]; exact Nat.zero_le m
        · rw [if_neg hc]; exact ih s
    | success h1 h2 h3 => exact bump_le σ.task h3 ih
    | finalWarn h1 h2 h3 => exact bump_le σ.task h3 ih
    | recoverable h1 h2 h3 => exact bump_le σ.task h3 ih
    | fatal h1 h2 h3 => exact bump_le σ.task h3 ih
    | blocked h1 h2 h3 => exact bump_le σ.task h3 ih

/-- Witness: the bound at a concrete state reached by pickup and one
successful Plan attempt and one successful Implement attempt. -/
theorem attempt_counts_bounded_witness :
    (afterSuccess (afterSuccess (withState initState .inProgress))).task.attempts Stage.plan ≤ 3 :=
  attempt_counts_bounded 3 _ reach3 Stage.plan

/-- Claim C5: PolicyEngine.evaluate is pure and deterministic —
identical (stage, output, rules) triples yield identical PolicyResult
values. -/
theorem evaluate_deterministic (s₁ s₂ : Stage) (o₁ o₂ : StageOutput) (r₁ r₂ : PolicyRules)
    (hs : s₁ = s₂) (ho : o₁ = o₂) (hr : r₁ = r₂) :
    evaluate s₁ o₁ r₁ = evaluate s₂ o₂ r₂ := by
  subst hs; subst ho; subst hr; rfl

/-- Witness: determinism at one concrete evaluation. -/
theorem evaluate_deterministic_witness :
    evaluate .implement ⟨50, [], 10, false, "x"⟩ ⟨some 10, true, some 80, false, true, []⟩
      = evaluate .implement ⟨50, [], 10, false, "x"⟩ ⟨some 10, true, some 80, false, true, []⟩ :=
  evaluate_deterministic _ _ _ _ _ _ rfl rfl rfl

/-- Claim C6: when violations fire, the overall severity is the maximum
severity across them — it is attained by some fired violation and
bounds all of them, and any block-severity violation forces overall
severity block. -/
theorem severity_is_max_violation (st : Stage) (o : StageOutput) (r : PolicyRules)
    (h : (evaluate st o r).violations ≠ []) :
    ∃ mx : Severity,
      (evaluate st o r).severity = some mx ∧
      (∃ v ∈ (evaluate st o r).violations, v.severity = mx) ∧
      (∀ v ∈ (evaluate st o r).violations, Severity.le v.severity mx = true) ∧
      ((∃ v ∈ (evaluate st o r).violations, v.severity = .block) → mx = .block) := by
  obtain ⟨mx, h1, h2, h3⟩ := overallSeverity_spec (checkViolations o r) h
  refine ⟨mx, h1, h2, h3, ?_⟩
  rintro ⟨v, hv, hb⟩
  have := h3 v hv
  rw [hb] at this
  exact sevLe_block mx this

/-- Witness: a concrete evaluation firing one block and one warn
violation. -/
theorem severity_is_max_violation_witness :
    ∃ mx : Severity,
      (evaluate .implement ⟨50, [], 10, false, "x"⟩
        ⟨some 10, true, some 80, false, true, []⟩).severity = some mx ∧
      (∃ v ∈ (evaluate .implement ⟨50, [], 10, false, "x"⟩
        ⟨some 10, true, some 80, false, true, []⟩).violations, v.severity = mx) ∧
      (∀ v ∈ (evaluate .implement ⟨50, [], 10, false, "x"⟩
        ⟨some 10, true, some 80, false, true, []⟩).violations,
        Severity.le v.severity mx = true) ∧
      ((∃ v ∈ (evaluate .implement ⟨50, [], 10, false, "x"⟩
        ⟨some 10, true, some 80, false, true, []⟩).violations, v.severity = .block) →
        mx = .block) :=
  severity_is_max_violation .implement ⟨50, [], 10, false, "x"⟩
    ⟨some 10, true, some 80, false, true, []⟩ (by decide)

/-- Claim C7: StageAttempt ordering is monotonic — in every reachable
state, a ledger entry for stage N+1 exists only if a successful entry
for stage N exists. -/
theorem stage_order_monotonic (m : Nat) (σ : SysState) (h : Reachable m σ) :
    ∀ a ∈ σ.ledger, ∀ s : Stage, s.next? = some a.stage →
      ∃ b ∈ σ.ledger, b.stage = s ∧ b.outcome = Outcome.success :=
  (ledgerInv_reachable h).1

/-- Witness: in a concrete run whose ledger holds an Implement attempt,
a successful Plan attempt is present. -/
theorem stage_order_monotonic_witness :
    ∃ b ∈ (afterSuccess (afterSuccess (withState initState .inProgress))).ledger,
      b.stage = Stage.plan ∧ b.outcome = Outcome.success :=
  stage_order_monotonic 3 _ reach3 ⟨Stage.implement, 1, Outcome.success⟩ (by decide) Stage.plan rfl

/-- Claim C8: CreateTaskModal.handleSubmit calls onCreate with n exactly
when parseInt of the entered text yields n > 0; a NaN or nonpositive
parse shows the error message and makes no creation request. -/
theorem handleSubmit_validates (s : String) :
    (∀ n : Int, handleSubmit s = SubmitResult.created n ↔ (jsParseInt s = some n ∧ 0 < n)) ∧
    ((jsParseInt s = none ∨ ∃ n, jsParseInt s = some n ∧ n ≤ 0) →
      handleSubmit s = SubmitResult.errorShown) := by
  constructor
  · intro n
    unfold handleSubmit
    rcases hp : jsParseInt s with _ | v
    · constructor
      · intro hc
        exact absurd hc (by simp)
      · rintro ⟨he, -⟩
        exact absurd he (by simp)
    · show (if v ≤ 0 then SubmitResult.errorShown else SubmitResult.created v)
          = SubmitResult.created n ↔ some v = some n ∧ 0 < n
      rcases le_or_lt v 0 with hv | hv
      · rw [if_pos hv]
        constructor
        · intro hc
          exact SubmitResult.noConfusion hc
        · rintro ⟨he, hn⟩
          injection he with he'
          omega
      · rw [if_neg (not_le.mpr hv)]
        constructor
        · intro hc
          injection hc with hc'
          subst hc'
          exact ⟨rfl, hv⟩
        · rintro ⟨he, -⟩
          injection he with he'
          subst he'
          rfl
  · rintro (h | ⟨n, hn, hle⟩)
    · simp [handleSubmit, h]
    · simp [handleSubmit, hn, if_pos hle]

/-- Witness: submitting 42 creates the task and submitting 0 shows the
error. -/
theorem handleSubmit_validates_witness :
    handleSubmit "42" = SubmitResult.created 42 ∧ handleSubmit "0" = SubmitResult.errorShown :=
  ⟨((handleSubmit_validates "42").1 42).mpr ⟨by decide, by decide⟩,
   (handleSubmit_validates "0").2 (Or.inr ⟨0, by decide, by decide⟩)⟩

/-- Claim C9: MetricsPanel renders the success rate as
(completed / total) × 100 to one decimal place when total > 0 and the
literal string 0.0 when total = 0, so the division is never taken with
a zero denominator. -/
theorem successRate_guarded (total completed : Nat) :
    (total = 0 → successRate total completed = "0.0") ∧
    (0 < total →
      ∃ t : Nat,
        successRate total completed = toString (t / 10) ++ "." ++ toString (t % 10) ∧
        t * (2 * total) ≤ completed * 100 * 10 * 2 + total ∧
        completed * 100 * 10 * 2 + total < (t + 1) * (2 * total)) := by
  constructor
  · intro h
    subst h
    rfl
  · intro h
    refine ⟨(completed * 100 * 10 * 2 + total) / (2 * total), ?_, ?_, ?_⟩
    · unfold successRate toFixed1
      rw [if_pos h]
    · exact Nat.div_mul_le_self _ _
    · have h2 : 0 < 2 * total := by omega
      have hdm := Nat.div_add_mod (completed * 100 * 10 * 2 + total) (2 * total)
      have hlt := Nat.mod_lt (completed * 100 * 10 * 2 + total) h2
      have hexp : ((completed * 100 * 10 * 2 + total) / (2 * total) + 1) * (2 * total)
          = 2 * total * ((completed * 100 * 10 * 2 + total) / (2 * total)) + 2 * total := by
        ring
      rw [hexp]
      omega

/-- Witness: zero total yields 0.0 and 3 of 4 yields 75.0 with the
characterizing bounds. -/
theorem successRate_guarded_witness :
    successRate 0 7 = "0.0" ∧
    (∃ t : Nat,
      successRate 4 3 = toString (t / 10) ++ "." ++ toString (t % 10) ∧
      t * (2 * 4) ≤ 3 * 100 * 10 * 2 + 4 ∧
      3 * 100 * 10 * 2 + 4 < (t + 1) * (2 * 4)) :=
  ⟨(successRate_guarded 0 7).1 rfl, (successRate_guarded 4 3).2 (by decide)⟩

/-- Claim C10: TaskList.getStatusClass always returns one of five badge
classes; pending/in_progress/completed/failed (case-insensitively) get
dedicated classes and every other status — including awaiting_approval
and cancelled — gets the generic default class. -/
theorem getStatusClass_cases (s : String) :
    ( getStatusClass s = "status-badge status-pending" ∨
     getStatusClass s = "status-badge status-in_progress" ∨
     getStatusClass s = "status-badge status-completed" ∨
     getStatusClass s = "status-badge status-failed" ∨
     getStatusClass s = "status-badge bg-slate-100 text-slate-800") ∧
    (toLowerStr s = "pending" → getStatusClass s = "status-badge status-pending") ∧
    (toLowerStr s = "in_progress" → getStatusClass s = "status-badge status-in_progress") ∧
    (toLowerStr s = "completed" → getStatusClass s = "status-badge status-completed") ∧
    (toLowerStr s = "failed" → getStatusClass s = "status-badge status-failed") ∧
    (toLowerStr s ≠ "pending" → toLowerStr s ≠ "in_progress" → toLowerStr s ≠ "completed" →
      toLowerStr s ≠ "failed" →
      getStatusClass s = "status-badge bg-slate-100 text-slate-800") ∧
    getStatusClass "awaiting_approval" = "status-badge bg-slate-100 text-slate-800" ∧
    getStatusClass "cancelled" = "status-badge bg-slate-100 text-slate-800" := by
  by_cases h1 : toLowerStr s = "pending"
  · have key : getStatusClass s = "status-badge status-pending" := by
      simp only [getStatusClass, h1]
      rfl
    refine ⟨Or.inl key, fun _ => key, fun h => ?_, fun h => ?_, fun h => ?_,
            fun hn _ _ _ => absurd h1 hn, by decide, by decide⟩ <;>
      exact absurd (h1.symm.trans h) (by decide)
  by_cases h2 : toLowerStr s = "in_progress"
  · have key : getStatusClass s = "status-badge status-in_progress" := by
      simp only [getStatusClass, h1, h2, if_neg h1]
      rfl
    refine ⟨Or.inr (Or.inl key), fun h => ?_, fun _ => key, fun h => ?_, fun h => ?_,
            fun _ hn _ _ => absurd h2 hn, by decide, by decide⟩ <;>
      exact absurd (h2.symm.trans h) (by decide)
  by_cases h3 : toLowerStr s = "completed"
  · have key : getStatusClass s = "status-badge status-completed" := by
      simp only [getStatusClass, h3, if_neg h1, if_neg h2]
      rfl
    refine ⟨Or.inr (Or.inr (Or.inl key)), fun h => ?_, fun h => ?_, fun _ => key,
            fun h => ?_, fun _ _ hn _ => absurd h3 hn, by decide, by decide⟩ <;>
      exact absurd (h3.symm.trans h) (by decide)
  by_cases h4 : toLowerStr s = "failed"
  · have key : getStatusClass s = "status-badge status-failed" := by
      simp only [getStatusClass, h4, if_neg h1, if_neg h2, if_neg h3]
      rfl
    refine ⟨Or.inr (Or.inr (Or.inr (Or.inl key))), fun h => ?_, fun h => ?_, fun h => ?_,
            fun _ => key, fun _ _ _ hn => absurd h4 hn, by decide, by decide⟩ <;>
      exact absurd (h4.symm.trans h) (by decide)
  · have key : getStatusClass s = "status-badge bg-slate-100 text-slate-800" := by
      simp only [getStatusClass, if_neg h1, if_neg h2, if_neg h3, if_neg h4]
      rfl
    exact ⟨Or.inr (Or.inr (Or.inr (Or.inr key))),
           fun h => absurd h h1, fun h => absurd h h2, fun h => absurd h h3,
           fun h => absurd h h4, fun _ _ _ _ => key, by decide, by decide⟩

/-- Witness: uppercase PENDING gets the dedicated class while
awaiting_approval and cancelled get the default class. -/
theorem getStatusClass_cases_witness :
    getStatusClass "PENDING" = "status-badge status-pending" ∧
    getStatusClass "awaiting_approval" = "status-badge bg-slate-100 text-slate-800" ∧
    getStatusClass "cancelled" = "status-badge bg-slate-100 text-slate-800" :=
  ⟨(getStatusClass_cases "PENDING").2.1 (by decide),
   (getStatusClass_cases "cancelled").2.2.2.2.2.2.1,
   (getStatusClass_cases "PENDING").2.2.2.2.2.2.2⟩

end OmniDev
